import Mathlib

set_option maxHeartbeats 1000000

/-!
Shallow embedding of `src/light_chat/models/ngram_module.py`.

Floating-point scalars are idealized as rationals.  The tensor library's
scalar functions (`torch.tanh`, `torch.exp`, `torch.log`) are abstract
operations collected in `Ops`, and the autograd engine (`loss.backward()`)
is an oracle `bw : Params → Batch → Params` producing the per-parameter
gradients of the batch loss; the module code itself only consumes its output.
-/

/-- Scalar operations supplied by the tensor library; the embedding is
parametric in them. -/
structure Ops where
  tanh : ℚ → ℚ
  exp : ℚ → ℚ
  log : ℚ → ℚ

/-- State of a torchmetrics `MeanMetric`: accumulated sum of values and
accumulated weight (one unit of weight per `update` call here). -/
structure MeanMetric where
  mean_value : ℚ
  weight : ℚ
  deriving DecidableEq

/-- A freshly constructed `MeanMetric()`: zero sum, zero weight. -/
def mmInit : MeanMetric := ⟨0, 0⟩

/-- `MeanMetric.update(value)` with the default weight 1. -/
def MeanMetric.update (m : MeanMetric) (v : ℚ) : MeanMetric :=
  ⟨m.mean_value + v, m.weight + 1⟩

/-- `MeanMetric.compute()`: accumulated sum over accumulated weight
(rational division, with division by zero evaluating to zero). -/
def MeanMetric.compute (m : MeanMetric) : ℚ :=
  m.mean_value / m.weight

/-- `MeanMetric.reset()`: back to the freshly constructed state. -/
def MeanMetric.reset (_m : MeanMetric) : MeanMetric := mmInit

/-- One training example: a 3-character n-gram context window and the
next-character label, both over the 27-symbol alphabet. -/
structure Example where
  ngram : Fin 3 → Fin 27
  label : Fin 27

/-- A batch yielded by a DataLoader. -/
abbrev Batch := List Example

/-- The five learnable parameter tensors of `NgramModuleVanilla`. -/
@[ext]
structure Params where
  enc : Fin 27 → Fin 2 → ℚ
  first_W : Fin 6 → Fin 100 → ℚ
  first_bias : Fin 100 → ℚ
  second_W : Fin 100 → Fin 27 → ℚ
  second_bias : Fin 27 → ℚ

/-- Names of the five tensors collected in `self.parameters`. -/
inductive PName where
  | enc
  | first_W
  | first_bias
  | second_W
  | second_bias
  deriving DecidableEq, Fintype

/-- The shape argument passed to `torch.randn` for each parameter
in `__init__`. -/
def paramShape : PName → List ℕ
  | .enc => [27, 2]
  | .first_W => [6, 100]
  | .first_bias => [100]
  | .second_W => [100, 27]
  | .second_bias => [27]

/-- The list literal assigned to `self.parameters` in `__init__`. -/
def paramList : List PName :=
  [.enc, .first_W, .first_bias, .second_W, .second_bias]

/-- State of an `NgramModuleVanilla` instance: the parameter data, the
per-parameter `.grad` slots, the `self.parameters` list, and the three
metric objects. -/
structure NgramModuleVanilla where
  params : Params
  encGrad : Option (Fin 27 → Fin 2 → ℚ)
  firstWGrad : Option (Fin 6 → Fin 100 → ℚ)
  firstBiasGrad : Option (Fin 100 → ℚ)
  secondWGrad : Option (Fin 100 → Fin 27 → ℚ)
  secondBiasGrad : Option (Fin 27 → ℚ)
  parameters : List PName
  train_loss : MeanMetric
  val_loss : MeanMetric
  test_loss : MeanMetric

/-- `torch.Generator` state: a seed and a position in the draw stream. -/
structure TorchGen where
  seed : ℕ
  pos : ℕ

/-- `torch.Generator()`: a fresh generator with a run-dependent default
seed. -/
def TorchGen.new (entropy : ℕ) : TorchGen := ⟨entropy, 0⟩

/-- `generator.manual_seed(s)`: discard the previous seed and restart the
stream at position zero. -/
def TorchGen.manual_seed (_g : TorchGen) (s : ℕ) : TorchGen := ⟨s, 0⟩

/-- `torch.randn((m, n), generator=g)` over the library's PRNG stream `f`
(seed and draw index to value): consume `m * n` draws row-major. -/
def randn2 (f : ℕ → ℕ → ℚ) (g : TorchGen) (m n : ℕ) :
    (Fin m → Fin n → ℚ) × TorchGen :=
  (fun i j => f g.seed (g.pos + i.val * n + j.val), ⟨g.seed, g.pos + m * n⟩)

/-- `torch.randn(n, generator=g)`: consume `n` draws. -/
def randn1 (f : ℕ → ℕ → ℚ) (g : TorchGen) (n : ℕ) :
    (Fin n → ℚ) × TorchGen :=
  (fun i => f g.seed (g.pos + i.val), ⟨g.seed, g.pos + n⟩)

/-- `NgramModuleVanilla.__init__`: seed a generator with 42, draw the five
parameter tensors in order, collect them in `self.parameters`, and create
the three metrics. `f` is the library PRNG stream; `entropy` is the
run-dependent default seed that `manual_seed(42)` overrides. -/
def NgramModuleVanilla.init (f : ℕ → ℕ → ℚ) (entropy : ℕ) :
    NgramModuleVanilla :=
  let g0 := (TorchGen.new entropy).manual_seed 42
  let r1 := randn2 f g0 27 2
  let r2 := randn2 f r1.2 6 100
  let r3 := randn1 f r2.2 100
  let r4 := randn2 f r3.2 100 27
  let r5 := randn1 f r4.2 27
  { params := ⟨r1.1, r2.1, r3.1, r4.1, r5.1⟩
    encGrad := none
    firstWGrad := none
    firstBiasGrad := none
    secondWGrad := none
    secondBiasGrad := none
    parameters := paramList
    train_loss := mmInit
    val_loss := mmInit
    test_loss := mmInit }

/-- `ngram_enc.view(-1, 6)` on one example: row-major flattening of its
(3, 2) block of context embeddings into a width-6 vector. -/
def view6 (e : Fin 3 → Fin 2 → ℚ) : Fin 6 → ℚ :=
  fun k => e ⟨k.val / 2, by have := k.isLt; omega⟩ ⟨k.val % 2, by omega⟩

/-- Logits of one example, following `forward`: embedding lookup by the
n-gram indices, `view(-1, 6)`, affine transform with `first_W` and
`first_bias`, `tanh`, affine transform with `second_W` and `second_bias`. -/
def logitsOf (ops : Ops) (p : Params) (ng : Fin 3 → Fin 27) : Fin 27 → ℚ :=
  fun o =>
    (∑ h : Fin 100,
        ops.tanh ((∑ k : Fin 6,
            view6 (fun i j => p.enc (ng i) j) k * p.first_W k h)
          + p.first_bias h) * p.second_W h o)
      + p.second_bias o

/-- `forward`: the per-example logits across the batch. -/
def forward (ops : Ops) (p : Params) (b : Batch) : List (Fin 27 → ℚ) :=
  b.map fun ex => logitsOf ops p ex.ngram

/-- One summand of `nn.CrossEntropyLoss`: log-sum-exp of the logits minus
the logit of the true label. -/
def ceTerm (ops : Ops) (z : Fin 27 → ℚ) (y : Fin 27) : ℚ :=
  ops.log (∑ o : Fin 27, ops.exp (z o)) - z y

/-- `nn.CrossEntropyLoss()` with its default mean reduction. -/
def criterion (ops : Ops) (zs : List (Fin 27 → ℚ)) (ys : List (Fin 27)) : ℚ :=
  ((zs.zip ys).map fun zy => ceTerm ops zy.1 zy.2).sum / (ys.length : ℚ)

/-- `model_step`: forward pass, then the criterion against the batch's
labels. -/
def model_step (ops : Ops) (p : Params) (b : Batch) : ℚ :=
  criterion ops (forward ops p b) (b.map Example.label)

/-- One iteration of the update loop in `training_step`:
`parameters.data += -0.1 * parameters.grad; parameters.grad = None`
for the parameter named `p` (a no-op if its grad slot is empty, which
never happens right after `loss.backward()`). -/
def sgdStep (m : NgramModuleVanilla) (p : PName) : NgramModuleVanilla :=
  match p with
  | .enc =>
    match m.encGrad with
    | some g =>
      { m with
        params := { m.params with
          enc := fun i j => m.params.enc i j + -(1 / 10) * g i j }
        encGrad := none }
    | none => m
  | .first_W =>
    match m.firstWGrad with
    | some g =>
      { m with
        params := { m.params with
          first_W := fun i j => m.params.first_W i j + -(1 / 10) * g i j }
        firstWGrad := none }
    | none => m
  | .first_bias =>
    match m.firstBiasGrad with
    | some g =>
      { m with
        params := { m.params with
          first_bias := fun i => m.params.first_bias i + -(1 / 10) * g i }
        firstBiasGrad := none }
    | none => m
  | .second_W =>
    match m.secondWGrad with
    | some g =>
      { m with
        params := { m.params with
          second_W := fun i j => m.params.second_W i j + -(1 / 10) * g i j }
        secondWGrad := none }
    | none => m
  | .second_bias =>
    match m.secondBiasGrad with
    | some g =>
      { m with
        params := { m.params with
          second_bias := fun i => m.params.second_bias i + -(1 / 10) * g i }
        secondBiasGrad := none }
    | none => m

/-- `training_step`: compute the batch loss, run `loss.backward()` (the
oracle `bw` fills every `.grad` slot with the gradient of this batch's
loss), fold the manual update over `self.parameters`, record the loss in
`train_loss`, and return the loss. -/
def training_step (ops : Ops) (bw : Params → Batch → Params)
    (m : NgramModuleVanilla) (x : Batch) : NgramModuleVanilla × ℚ :=
  let loss := model_step ops m.params x
  let g := bw m.params x
  let m1 := { m with
    encGrad := some g.enc
    firstWGrad := some g.first_W
    firstBiasGrad := some g.first_bias
    secondWGrad := some g.second_W
    secondBiasGrad := some g.second_bias }
  let m2 := m1.parameters.foldl sgdStep m1
  ({ m2 with train_loss := m2.train_loss.update loss }, loss)

/-- `validation_step`: compute the batch loss and record it in `val_loss`. -/
def validation_step (ops : Ops) (m : NgramModuleVanilla) (x : Batch) :
    NgramModuleVanilla :=
  { m with val_loss := m.val_loss.update (model_step ops m.params x) }

/-- `test_step`: compute the batch loss and record it in `test_loss`. -/
def test_step (ops : Ops) (m : NgramModuleVanilla) (x : Batch) :
    NgramModuleVanilla :=
  { m with test_loss := m.test_loss.update (model_step ops m.params x) }

/-- The inner loop of `train_model` over the train loader, returning the
final model state and the per-step losses printed in order. -/
def trainPhase (ops : Ops) (bw : Params → Batch → Params) :
    List Batch → NgramModuleVanilla → NgramModuleVanilla × List ℚ
  | [], m => (m, [])
  | b :: bs, m =>
    let r := training_step ops bw m b
    let rest := trainPhase ops bw bs r.1
    (rest.1, r.2 :: rest.2)

/-- What one epoch of `train_model` prints: the per-step training losses
and the two epoch means. -/
structure EpochReport where
  stepLosses : List ℚ
  trainMean : ℚ
  valMean : ℚ

/-- One iteration of the epoch loop in `train_model`: train over the
train loader, validate over the val loader, print both epoch means, then
reset both metrics. -/
def epochBody (ops : Ops) (bw : Params → Batch → Params)
    (m : NgramModuleVanilla) (tB vB : List Batch) :
    NgramModuleVanilla × EpochReport :=
  let r := trainPhase ops bw tB m
  let m2 := vB.foldl (validation_step ops) r.1
  let tMean := m2.train_loss.compute
  let vMean := m2.val_loss.compute
  let m3 := { m2 with
    train_loss := m2.train_loss.reset
    val_loss := m2.val_loss.reset }
  (m3, ⟨r.2, tMean, vMean⟩)

/-- `train_model`: the epoch loop, returning the final model state and the
per-epoch reports in order. -/
def train_model (ops : Ops) (bw : Params → Batch → Params)
    (tB vB : List Batch) :
    ℕ → NgramModuleVanilla → NgramModuleVanilla × List EpochReport
  | 0, m => (m, [])
  | Nat.succ e, m =>
    let r := epochBody ops bw m tB vB
    let rest := train_model ops bw tB vB e r.1
    (rest.1, r.2 :: rest.2)

/-- The runtime value passed as `test_loader` to `evaluate_model`: either
an iterable DataLoader, or a bound dataloader method that was never
called (what `dataset.test_dataloader` without parentheses denotes). -/
inductive LoaderArg where
  | loader (batches : List Batch)
  | boundMethod (f : Unit → List Batch)

/-- `evaluate_model`: iterate `test_step` over the test loader inside
`torch.no_grad()`, print the test mean, and reset `test_loss`.  Iterating
a bound method object raises a TypeError. -/
def evaluate_model (ops : Ops) (m : NgramModuleVanilla) (arg : LoaderArg) :
    Except String (NgramModuleVanilla × ℚ) :=
  match arg with
  | .boundMethod _ => .error "TypeError: method object is not iterable"
  | .loader bs =>
    let m1 := bs.foldl (test_step ops) m
    let t := m1.test_loss.compute
    .ok ({ m1 with test_loss := m1.test_loss.reset }, t)

/-- Modelled from the spec: `NamesDataModule` (its file
`light_chat/data/datamodule.py` is not under `src/`) is a thin
data-loading wrapper over a newline-separated names file, exposing one
dataloader per split through the methods `train_dataloader`,
`val_dataloader` and `test_dataloader` (the first two are called with
parentheses at the call sites in `__main__`, so all three are methods,
modelled as functions from `Unit`). -/
structure NamesDataModule where
  trainBatches : List Batch
  valBatches : List Batch
  testBatches : List Batch

/-- Modelled from the spec: the `train_dataloader` method. -/
def NamesDataModule.train_dataloader (d : NamesDataModule) :
    Unit → List Batch := fun _ => d.trainBatches

/-- Modelled from the spec: the `val_dataloader` method. -/
def NamesDataModule.val_dataloader (d : NamesDataModule) :
    Unit → List Batch := fun _ => d.valBatches

/-- Modelled from the spec: the `test_dataloader` method. -/
def NamesDataModule.test_dataloader (d : NamesDataModule) :
    Unit → List Batch := fun _ => d.testBatches

/-- The `__main__` block: set up the data module, construct the model,
train for 100 epochs, then call
`evaluate_model(model, dataset.test_dataloader)` — note the missing
parentheses: the bound method itself is passed, not a DataLoader.
Returns the per-epoch reports and either the printed test loss or the
runtime error. -/
def mainProgram (ops : Ops) (bw : Params → Batch → Params)
    (f : ℕ → ℕ → ℚ) (entropy : ℕ) (dm : NamesDataModule) :
    List EpochReport × Except String ℚ :=
  let model := NgramModuleVanilla.init f entropy
  let r := train_model ops bw (dm.train_dataloader ()) (dm.val_dataloader ())
    100 model
  match evaluate_model ops r.1 (LoaderArg.boundMethod dm.test_dataloader) with
  | .ok p => (r.2, .ok p.2)
  | .error e => (r.2, .error e)

/-- Explicit concatenation of two vectors, as the spec's
"concatenation of the context embeddings" reads. -/
def concat2 {a b : ℕ} (u : Fin a → ℚ) (v : Fin b → ℚ) : Fin (a + b) → ℚ :=
  fun k =>
    if h : k.val < a then u ⟨k.val, h⟩
    else v ⟨k.val - a, by have := k.isLt; omega⟩

/-- The spec's width-6 vector: the three context embeddings of one
example concatenated in order. -/
def specConcat (e : Fin 3 → Fin 2 → ℚ) : Fin 6 → ℚ :=
  concat2 (concat2 (e 0) (e 1)) (e 2)

/-- The logits pipeline written the way the spec describes it:
embedding-table lookup, concatenation of the context embeddings into a
width-6 vector, affine transform with `first_W` and `first_bias`, `tanh`,
affine transform with `second_W` and `second_bias`. -/
def specLogits (ops : Ops) (p : Params) (ng : Fin 3 → Fin 27) :
    Fin 27 → ℚ :=
  fun o =>
    (∑ h : Fin 100,
        ops.tanh ((∑ k : Fin 6,
            specConcat (fun i j => p.enc (ng i) j) k * p.first_W k h)
          + p.first_bias h) * p.second_W h o)
      + p.second_bias o

/-- The batch loss the spec describes: mean cross-entropy of the
spec-pipeline logits against the true next-character labels. -/
def specStepLoss (ops : Ops) (p : Params) (b : Batch) : ℚ :=
  (b.map fun ex => ceTerm ops (specLogits ops p ex.ngram) ex.label).sum
    / (b.length : ℚ)

/-- The post-state of the manual gradient-descent update: each parameter
equals its previous value minus 0.1 times its gradient. -/
def sgdUpdated (old new g : Params) : Prop :=
  new.enc = (fun i j => old.enc i j - 1 / 10 * g.enc i j)
  ∧ new.first_W = (fun i j => old.first_W i j - 1 / 10 * g.first_W i j)
  ∧ new.first_bias = (fun i => old.first_bias i - 1 / 10 * g.first_bias i)
  ∧ new.second_W = (fun i j => old.second_W i j - 1 / 10 * g.second_W i j)
  ∧ new.second_bias = (fun i => old.second_bias i - 1 / 10 * g.second_bias i)

/-- All five `.grad` slots are cleared (set to `None`). -/
def gradsCleared (m : NgramModuleVanilla) : Prop :=
  m.encGrad = none ∧ m.firstWGrad = none ∧ m.firstBiasGrad = none
    ∧ m.secondWGrad = none ∧ m.secondBiasGrad = none

/-- Each parameter is left unchanged exactly when its batch gradient is
identically zero. -/
def unchangedIffZeroGrad (old new g : Params) : Prop :=
  (new.enc = old.enc ↔ g.enc = fun _ _ => 0)
  ∧ (new.first_W = old.first_W ↔ g.first_W = fun _ _ => 0)
  ∧ (new.first_bias = old.first_bias ↔ g.first_bias = fun _ => 0)
  ∧ (new.second_W = old.second_W ↔ g.second_W = fun _ _ => 0)
  ∧ (new.second_bias = old.second_bias ↔ g.second_bias = fun _ => 0)

/-- A computable stand-in for `exp` on rationals: positive everywhere,
strictly monotone, with `qlog` as left inverse. -/
def qexp (x : ℚ) : ℚ := if 0 ≤ x then x + 1 else 1 / (1 - x)

/-- A computable stand-in for `log` on rationals: monotone on positives
and a left inverse of `qexp`. -/
def qlog (y : ℚ) : ℚ := if 1 ≤ y then y - 1 else 1 - 1 / y

/-- Concrete scalar operations for witnesses. -/
def ops1 : Ops := ⟨id, qexp, qlog⟩

/-- The all-zeros PRNG stream (for witnesses). -/
def f0 : ℕ → ℕ → ℚ := fun _ _ => 0

/-- All five parameter tensors identically zero. -/
def zeroParams : Params :=
  ⟨fun _ _ => 0, fun _ _ => 0, fun _ => 0, fun _ _ => 0, fun _ => 0⟩

/-- A gradient oracle returning the zero gradient; this is the true
gradient of the batch loss at all-zero parameters on a label-balanced
batch (the logits are constant, so the softmax matches the empirical
label distribution and every chain-rule factor vanishes). -/
def bw0 : Params → Batch → Params := fun _ _ => zeroParams

/-- A freshly constructed model over the all-zeros stream: all five
parameter tensors are zero. -/
def m0 : NgramModuleVanilla := NgramModuleVanilla.init f0 0

/-- A batch whose 27 labels are exactly the 27 symbols, once each. -/
def balancedBatch : Batch :=
  (List.finRange 27).map fun i => ⟨fun _ => 0, i⟩

/-! ### Helper lemmas -/

theorem specConcat_eq_view6 (e : Fin 3 → Fin 2 → ℚ) : specConcat e = view6 e := by
  funext k
  fin_cases k <;> rfl

theorem logitsOf_eq_specLogits (ops : Ops) (p : Params) (ng : Fin 3 → Fin 27) :
    logitsOf ops p ng = specLogits ops p ng := by
  unfold logitsOf specLogits
  rw [specConcat_eq_view6]

theorem foldl_update_mean_value (vs : List ℚ) :
    ∀ μ : MeanMetric,
      (vs.foldl MeanMetric.update μ).mean_value = μ.mean_value + vs.sum := by
  induction vs with
  | nil => intro μ; simp
  | cons v t ih =>
    intro μ
    simp only [List.foldl_cons, ih, MeanMetric.update, List.sum_cons]
    ring

theorem foldl_update_weight (vs : List ℚ) :
    ∀ μ : MeanMetric,
      (vs.foldl MeanMetric.update μ).weight = μ.weight + (vs.length : ℚ) := by
  induction vs with
  | nil => intro μ; simp
  | cons v t ih =>
    intro μ
    simp only [List.foldl_cons, ih, MeanMetric.update, List.length_cons]
    push_cast
    ring

theorem sgdStep_frame (m : NgramModuleVanilla) (p : PName) :
    (sgdStep m p).train_loss = m.train_loss
    ∧ (sgdStep m p).val_loss = m.val_loss
    ∧ (sgdStep m p).test_loss = m.test_loss
    ∧ (sgdStep m p).parameters = m.parameters := by
  cases p <;> simp only [sgdStep] <;> (split <;> exact ⟨rfl, rfl, rfl, rfl⟩)

theorem foldl_sgdStep_frame (l : List PName) :
    ∀ m : NgramModuleVanilla,
      (l.foldl sgdStep m).train_loss = m.train_loss
      ∧ (l.foldl sgdStep m).val_loss = m.val_loss
      ∧ (l.foldl sgdStep m).test_loss = m.test_loss := by
  induction l with
  | nil => intro m; exact ⟨rfl, rfl, rfl⟩
  | cons p t ih =>
    intro m
    obtain ⟨h1, h2, h3, _⟩ := sgdStep_frame m p
    obtain ⟨g1, g2, g3⟩ := ih (sgdStep m p)
    exact ⟨g1.trans h1, g2.trans h2, g3.trans h3⟩

theorem training_step_frame (ops : Ops) (bw : Params → Batch → Params)
    (m : NgramModuleVanilla) (x : Batch) :
    (training_step ops bw m x).1.train_loss
        = m.train_loss.update (model_step ops m.params x)
    ∧ (training_step ops bw m x).1.val_loss = m.val_loss
    ∧ (training_step ops bw m x).1.test_loss = m.test_loss
    ∧ (training_step ops bw m x).2 = model_step ops m.params x := by
  obtain ⟨h1, h2, h3⟩ := foldl_sgdStep_frame m.parameters
    { m with
      encGrad := some (bw m.params x).enc
      firstWGrad := some (bw m.params x).first_W
      firstBiasGrad := some (bw m.params x).first_bias
      secondWGrad := some (bw m.params x).second_W
      secondBiasGrad := some (bw m.params x).second_bias }
  exact ⟨congrArg (fun t : MeanMetric => t.update (model_step ops m.params x)) h1,
    h2, h3, rfl⟩

theorem training_step_updates (ops : Ops) (bw : Params → Batch → Params)
    (m : NgramModuleVanilla) (x : Batch) (h : m.parameters = paramList) :
    sgdUpdated m.params (training_step ops bw m x).1.params (bw m.params x)
    ∧ gradsCleared (training_step ops bw m x).1 := by
  obtain ⟨pp, e1, e2, e3, e4, e5, pl, tl, vl, stl⟩ := m
  dsimp only at h
  subst h
  refine ⟨⟨?_, ?_, ?_, ?_, ?_⟩, rfl, rfl, rfl, rfl, rfl⟩
  · funext i j
    show pp.enc i j + -(1 / 10) * (bw pp x).enc i j
        = pp.enc i j - 1 / 10 * (bw pp x).enc i j
    ring
  · funext i j
    show pp.first_W i j + -(1 / 10) * (bw pp x).first_W i j
        = pp.first_W i j - 1 / 10 * (bw pp x).first_W i j
    ring
  · funext i
    show pp.first_bias i + -(1 / 10) * (bw pp x).first_bias i
        = pp.first_bias i - 1 / 10 * (bw pp x).first_bias i
    ring
  · funext i j
    show pp.second_W i j + -(1 / 10) * (bw pp x).second_W i j
        = pp.second_W i j - 1 / 10 * (bw pp x).second_W i j
    ring
  · funext i
    show pp.second_bias i + -(1 / 10) * (bw pp x).second_bias i
        = pp.second_bias i - 1 / 10 * (bw pp x).second_bias i
    ring

theorem fun2_sub_eq_self_iff {α β : Type} (f g : α → β → ℚ) :
    (fun i j => f i j - 1 / 10 * g i j) = f ↔ g = fun _ _ => 0 := by
  constructor
  · intro h
    funext i j
    have hij : f i j - 1 / 10 * g i j = f i j := congrFun (congrFun h i) j
    have : (1 : ℚ) / 10 * g i j = 0 := by linarith
    have h10 : (1 : ℚ) / 10 ≠ 0 := by norm_num
    simpa [h10] using this
  · intro h
    subst h
    funext i j
    simp

theorem fun1_sub_eq_self_iff {α : Type} (f g : α → ℚ) :
    (fun i => f i - 1 / 10 * g i) = f ↔ g = fun _ => 0 := by
  constructor
  · intro h
    funext i
    have hi : f i - 1 / 10 * g i = f i := congrFun h i
    have : (1 : ℚ) / 10 * g i = 0 := by linarith
    have h10 : (1 : ℚ) / 10 ≠ 0 := by norm_num
    simpa [h10] using this
  · intro h
    subst h
    funext i
    simp

theorem ceTerm_nonneg (ops : Ops) (z : Fin 27 → ℚ) (y : Fin 27)
    (hexp : ∀ a, 0 < ops.exp a)
    (hlog : ∀ a b, 0 < a → a ≤ b → ops.log a ≤ ops.log b)
    (hle : ∀ a, ops.log (ops.exp a) = a) :
    0 ≤ ceTerm ops z y := by
  unfold ceTerm
  rw [sub_nonneg]
  calc z y = ops.log (ops.exp (z y)) := (hle _).symm
    _ ≤ ops.log (∑ o : Fin 27, ops.exp (z o)) := by
        refine hlog _ _ (hexp _) ?_
        exact Finset.single_le_sum (fun o _ => le_of_lt (hexp (z o)))
          (Finset.mem_univ y)

theorem model_step_nonneg (ops : Ops) (p : Params) (b : Batch)
    (hexp : ∀ a, 0 < ops.exp a)
    (hlog : ∀ a b, 0 < a → a ≤ b → ops.log a ≤ ops.log b)
    (hle : ∀ a, ops.log (ops.exp a) = a) :
    0 ≤ model_step ops p b := by
  unfold model_step criterion
  refine div_nonneg (List.sum_nonneg ?_) (by positivity)
  intro q hq
  simp only [List.mem_map] at hq
  obtain ⟨zy, _, rfl⟩ := hq
  exact ceTerm_nonneg ops zy.1 zy.2 hexp hlog hle

theorem qexp_pos : ∀ a : ℚ, 0 < qexp a := by
  intro a
  unfold qexp
  split
  · linarith
  · next h =>
      have ha : a < 0 := not_le.mp h
      exact div_pos one_pos (by linarith)

theorem qlog_mono : ∀ a b : ℚ, 0 < a → a ≤ b → qlog a ≤ qlog b := by
  intro a b ha hab
  unfold qlog
  split <;> split
  · linarith
  · next h1 h2 => linarith [not_le.mp h2]
  · next h1 h2 =>
      have h1a : a < 1 := not_le.mp h1
      have : 1 ≤ 1 / a := by
        rw [le_div_iff₀ ha]
        linarith
      linarith
  · next h1 h2 =>
      have hinv : 1 / b ≤ 1 / a := one_div_le_one_div_of_le ha hab
      linarith

theorem qlog_qexp : ∀ a : ℚ, qlog (qexp a) = a := by
  intro a
  unfold qexp qlog
  rcases le_or_lt 0 a with h | h
  · rw [if_pos h, if_pos (by linarith : (1 : ℚ) ≤ a + 1)]
    ring
  · rw [if_neg (not_le.mpr h)]
    have hpos : (0 : ℚ) < 1 - a := by linarith
    have hlt : 1 / (1 - a) < 1 := by
      rw [div_lt_one hpos]
      linarith
    rw [if_neg (not_le.mpr hlt), one_div_one_div]
    ring

theorem validation_fold_frame (ops : Ops) (vB : List Batch) :
    ∀ m : NgramModuleVanilla,
      (vB.foldl (validation_step ops) m).params = m.params
      ∧ (vB.foldl (validation_step ops) m).train_loss = m.train_loss
      ∧ (vB.foldl (validation_step ops) m).test_loss = m.test_loss := by
  induction vB with
  | nil => intro m; exact ⟨rfl, rfl, rfl⟩
  | cons v t ih =>
    intro m
    obtain ⟨g1, g2, g3⟩ := ih (validation_step ops m v)
    exact ⟨g1, g2, g3⟩

theorem validation_fold_val_loss (ops : Ops) (vB : List Batch) :
    ∀ m : NgramModuleVanilla,
      (vB.foldl (validation_step ops) m).val_loss
        = (vB.map (model_step ops m.params)).foldl MeanMetric.update
            m.val_loss := by
  induction vB with
  | nil => intro m; rfl
  | cons v t ih =>
    intro m
    simp only [List.foldl_cons, List.map_cons]
    exact ih (validation_step ops m v)

theorem test_fold_params (ops : Ops) (bs : List Batch) :
    ∀ m : NgramModuleVanilla,
      (bs.foldl (test_step ops) m).params = m.params := by
  induction bs with
  | nil => intro m; rfl
  | cons b t ih => intro m; exact ih (test_step ops m b)

theorem trainPhase_metrics (ops : Ops) (bw : Params → Batch → Params)
    (tB : List Batch) :
    ∀ m : NgramModuleVanilla,
      (trainPhase ops bw tB m).1.train_loss
          = (trainPhase ops bw tB m).2.foldl MeanMetric.update m.train_loss
      ∧ (trainPhase ops bw tB m).1.val_loss = m.val_loss
      ∧ (trainPhase ops bw tB m).1.test_loss = m.test_loss := by
  induction tB with
  | nil => intro m; exact ⟨rfl, rfl, rfl⟩
  | cons b t ih =>
    intro m
    obtain ⟨f1, f2, f3, f4⟩ := training_step_frame ops bw m b
    obtain ⟨g1, g2, g3⟩ := ih (training_step ops bw m b).1
    simp only [trainPhase, List.foldl_cons]
    exact ⟨by rw [g1, f1, f4], g2.trans f2, g3.trans f3⟩

theorem train_model_length (ops : Ops) (bw : Params → Batch → Params)
    (tB vB : List Batch) :
    ∀ (n : ℕ) (m : NgramModuleVanilla),
      (train_model ops bw tB vB n m).2.length = n := by
  intro n
  induction n with
  | zero => intro m; rfl
  | succ e ih =>
    intro m
    simp only [train_model, List.length_cons]
    rw [ih]

/-! ### Claim theorems -/

/-- C1: for every batch, `training_step` performs one manual
gradient-descent update: after `loss.backward()`, each of the five
parameter tensors equals its previous value minus 0.1 times the gradient
of that batch's loss with respect to that parameter, and afterwards every
parameter's gradient slot is cleared to `None` (the loss is also recorded
in `train_loss`). -/
theorem c1_training_step_manual_sgd (ops : Ops)
    (bw : Params → Batch → Params) (m : NgramModuleVanilla) (x : Batch)
    (h : m.parameters = paramList) :
    sgdUpdated m.params (training_step ops bw m x).1.params (bw m.params x)
    ∧ gradsCleared (training_step ops bw m x).1
    ∧ (training_step ops bw m x).1.train_loss
        = m.train_loss.update (model_step ops m.params x) :=
  ⟨(training_step_updates ops bw m x h).1,
   (training_step_updates ops bw m x h).2,
   (training_step_frame ops bw m x).1⟩

/-- Witness for C1 at a concrete model and batch. -/
theorem c1_training_step_manual_sgd_witness :
    sgdUpdated m0.params (training_step ops1 bw0 m0 balancedBatch).1.params
        (bw0 m0.params balancedBatch)
    ∧ gradsCleared (training_step ops1 bw0 m0 balancedBatch).1
    ∧ (training_step ops1 bw0 m0 balancedBatch).1.train_loss
        = m0.train_loss.update (model_step ops1 m0.params balancedBatch) :=
  c1_training_step_manual_sgd ops1 bw0 m0 balancedBatch rfl

/-- C2: for every batch, `model_step` returns the cross-entropy loss
between the batch's next-character labels and logits computed by the
pipeline: embedding-table lookup, concatenation of the context embeddings
into a width-6 vector, affine transform with `first_W` and `first_bias`,
`tanh`, then affine transform with `second_W` and `second_bias`. -/
theorem c2_model_step_is_spec_pipeline (ops : Ops) (p : Params)
    (b : Batch) :
    model_step ops p b = specStepLoss ops p b := by
  unfold model_step criterion forward specStepLoss
  simp only [List.zip_map', List.map_map, List.length_map, Function.comp,
    logitsOf_eq_specLogits]
  rfl

/-- C3 counterexample: at all-zero parameters and a label-balanced batch
the batch gradient is identically zero, so `training_step` leaves every
parameter tensor exactly as it was — refuting the claim that the
parameter values always differ after one call. -/
theorem c3_params_unchanged_cex :
    (training_step ops1 bw0 m0 balancedBatch).1.params = m0.params := by
  obtain ⟨h1, h2, h3, h4, h5⟩ :=
    (training_step_updates ops1 bw0 m0 balancedBatch rfl).1
  apply Params.ext
  · rw [h1]; funext i j; simp [bw0, zeroParams]
  · rw [h2]; funext i j; simp [bw0, zeroParams]
  · rw [h3]; funext i; simp [bw0, zeroParams]
  · rw [h4]; funext i j; simp [bw0, zeroParams]
  · rw [h5]; funext i; simp [bw0, zeroParams]

/-- C3 (amended): after one `training_step` each parameter tensor is
unchanged exactly when that batch's gradient for it is identically zero
(so parameters do change whenever their gradient is nonzero), and the
loss recorded in `train_loss` is the batch loss, a rational (hence
finite) that is non-negative whenever `exp` is positive and `log` is
monotone on positives with `log (exp a) = a`. -/
theorem c3_param_change_iff_grad_nonzero (ops : Ops)
    (bw : Params → Batch → Params) (m : NgramModuleVanilla) (x : Batch)
    (h : m.parameters = paramList)
    (hexp : ∀ a, 0 < ops.exp a)
    (hlog : ∀ a b, 0 < a → a ≤ b → ops.log a ≤ ops.log b)
    (hle : ∀ a, ops.log (ops.exp a) = a) :
    unchangedIffZeroGrad m.params (training_step ops bw m x).1.params
        (bw m.params x)
    ∧ (training_step ops bw m x).1.train_loss
        = m.train_loss.update (model_step ops m.params x)
    ∧ 0 ≤ model_step ops m.params x := by
  obtain ⟨h1, h2, h3, h4, h5⟩ := (training_step_updates ops bw m x h).1
  refine ⟨⟨?_, ?_, ?_, ?_, ?_⟩, (training_step_frame ops bw m x).1,
    model_step_nonneg ops m.params x hexp hlog hle⟩
  · rw [h1]; exact fun2_sub_eq_self_iff _ _
  · rw [h2]; exact fun2_sub_eq_self_iff _ _
  · rw [h3]; exact fun1_sub_eq_self_iff _ _
  · rw [h4]; exact fun2_sub_eq_self_iff _ _
  · rw [h5]; exact fun1_sub_eq_self_iff _ _

/-- Witness for the amended C3 at a concrete model, batch and concrete
scalar operations satisfying the hypotheses. -/
theorem c3_param_change_iff_grad_nonzero_witness :
    unchangedIffZeroGrad m0.params
        (training_step ops1 bw0 m0 balancedBatch).1.params
        (bw0 m0.params balancedBatch)
    ∧ (training_step ops1 bw0 m0 balancedBatch).1.train_loss
        = m0.train_loss.update (model_step ops1 m0.params balancedBatch)
    ∧ 0 ≤ model_step ops1 m0.params balancedBatch :=
  c3_param_change_iff_grad_nonzero ops1 bw0 m0 balancedBatch rfl
    qexp_pos qlog_mono qlog_qexp

/-- C4: for every test loader, `evaluate_model` (running `test_step` on
each batch inside a no-gradient context) succeeds and leaves all five
parameter tensors of the model unchanged. -/
theorem c4_evaluate_model_preserves_params (ops : Ops)
    (m : NgramModuleVanilla) (bs : List Batch) :
    ∃ mt : NgramModuleVanilla × ℚ,
      evaluate_model ops m (LoaderArg.loader bs) = Except.ok mt
      ∧ mt.1.params = m.params := by
  refine ⟨_, rfl, ?_⟩
  exact test_fold_params ops bs m

/-- C5: after N updates from the fresh state the running-mean metric
computes the arithmetic mean of the N values, and a reset returns any
metric to the initial zero state with no accumulated weight. -/
theorem c5_mean_metric (vs : List ℚ) (_h : vs ≠ []) (μ : MeanMetric) :
    (vs.foldl MeanMetric.update mmInit).compute = vs.sum / (vs.length : ℚ)
    ∧ μ.reset = mmInit ∧ mmInit.weight = 0 := by
  refine ⟨?_, rfl, rfl⟩
  unfold MeanMetric.compute
  rw [foldl_update_mean_value, foldl_update_weight]
  simp [mmInit]

/-- Witness for C5 on the two-element list `[2, 4]`. -/
theorem c5_mean_metric_witness :
    (([2, 4] : List ℚ).foldl MeanMetric.update mmInit).compute
        = ([2, 4] : List ℚ).sum / ((([2, 4] : List ℚ).length : ℚ))
    ∧ MeanMetric.reset ⟨7, 2⟩ = mmInit ∧ mmInit.weight = 0 :=
  c5_mean_metric [2, 4] (List.cons_ne_nil 2 [4]) ⟨7, 2⟩

/-- C6: in `train_model`, whenever an epoch starts with both running-mean
metrics in their reset state, the reported epoch training mean is the
arithmetic mean of exactly that epoch's per-step losses, the reported
validation mean is the arithmetic mean of exactly that epoch's validation
losses, and at the epoch boundary both metrics are reset again — so every
epoch starts with no accumulated losses. -/
theorem c6_epoch_metrics (ops : Ops) (bw : Params → Batch → Params)
    (tB vB : List Batch) (m : NgramModuleVanilla)
    (hT : m.train_loss = mmInit) (hV : m.val_loss = mmInit) :
    (epochBody ops bw m tB vB).2.trainMean
        = (epochBody ops bw m tB vB).2.stepLosses.sum
            / ((epochBody ops bw m tB vB).2.stepLosses.length : ℚ)
    ∧ (epochBody ops bw m tB vB).2.valMean
        = (vB.map (model_step ops (trainPhase ops bw tB m).1.params)).sum
            / (vB.length : ℚ)
    ∧ (epochBody ops bw m tB vB).1.train_loss = mmInit
    ∧ (epochBody ops bw m tB vB).1.val_loss = mmInit := by
  obtain ⟨t1, t2, t3⟩ := trainPhase_metrics ops bw tB m
  obtain ⟨v1, v2, v3⟩ := validation_fold_frame ops vB (trainPhase ops bw tB m).1
  have vv := validation_fold_val_loss ops vB (trainPhase ops bw tB m).1
  have e1 : (epochBody ops bw m tB vB).2.trainMean
      = ((vB.foldl (validation_step ops)
          (trainPhase ops bw tB m).1).train_loss).compute := rfl
  have e2 : (epochBody ops bw m tB vB).2.stepLosses
      = (trainPhase ops bw tB m).2 := rfl
  have e3 : (epochBody ops bw m tB vB).2.valMean
      = ((vB.foldl (validation_step ops)
          (trainPhase ops bw tB m).1).val_loss).compute := rfl
  refine ⟨?_, ?_, rfl, rfl⟩
  · rw [e1, e2, v2, t1, hT]
    unfold MeanMetric.compute
    rw [foldl_update_mean_value, foldl_update_weight]
    simp [mmInit]
  · rw [e3, vv, t2, hV]
    unfold MeanMetric.compute
    rw [foldl_update_mean_value, foldl_update_weight]
    simp [mmInit]

/-- Witness for C6 on a one-batch training loader and an empty validation
loader starting from a freshly constructed model. -/
theorem c6_epoch_metrics_witness :
    (epochBody ops1 bw0 m0 [balancedBatch] []).2.trainMean
        = (epochBody ops1 bw0 m0 [balancedBatch] []).2.stepLosses.sum
            / ((epochBody ops1 bw0 m0 [balancedBatch] []).2.stepLosses.length : ℚ)
    ∧ (epochBody ops1 bw0 m0 [balancedBatch] []).2.valMean
        = (([] : List Batch).map
            (model_step ops1 (trainPhase ops1 bw0 [balancedBatch] m0).1.params)).sum
            / ((([] : List Batch).length : ℚ))
    ∧ (epochBody ops1 bw0 m0 [balancedBatch] []).1.train_loss = mmInit
    ∧ (epochBody ops1 bw0 m0 [balancedBatch] []).1.val_loss = mmInit :=
  c6_epoch_metrics ops1 bw0 [balancedBatch] [] m0 rfl rfl

/-- C7: constructing `NgramModuleVanilla` collects exactly the five
learnable tensors in `self.parameters` — the 27-by-2 embedding table, the
6-by-100 first weight matrix, the length-100 first bias, the 100-by-27
second weight matrix and the length-27 second bias — and there are
exactly five parameter names. -/
theorem c7_five_parameters (f : ℕ → ℕ → ℚ) (s : ℕ) :
    (NgramModuleVanilla.init f s).parameters
        = [PName.enc, PName.first_W, PName.first_bias, PName.second_W,
            PName.second_bias]
    ∧ (NgramModuleVanilla.init f s).parameters.length = 5
    ∧ Fintype.card PName = 5
    ∧ paramShape PName.enc = [27, 2]
    ∧ paramShape PName.first_W = [6, 100]
    ∧ paramShape PName.first_bias = [100]
    ∧ paramShape PName.second_W = [100, 27]
    ∧ paramShape PName.second_bias = [27] := by
  refine ⟨rfl, rfl, ?_, rfl, rfl, rfl, rfl, rfl⟩
  decide

/-- C8 (code bug): the `__main__` block trains for exactly 100 epochs, but
then passes the bound method `dataset.test_dataloader` — without calling
it — to `evaluate_model`, whose loop cannot iterate a method object, so
the run ends in a TypeError and the held-out evaluation never happens. -/
theorem c8_main_test_eval_type_error (ops : Ops)
    (bw : Params → Batch → Params) (f : ℕ → ℕ → ℚ) (s : ℕ)
    (dm : NamesDataModule) :
    (mainProgram ops bw f s dm).1.length = 100
    ∧ (mainProgram ops bw f s dm).2
        = Except.error "TypeError: method object is not iterable" := by
  constructor
  · exact train_model_length ops bw (dm.train_dataloader ())
      (dm.val_dataloader ()) 100 (NgramModuleVanilla.init f s)
  · rfl

/-- C9: construction is deterministic — the run-dependent default seed of
`torch.Generator()` is discarded by `manual_seed(42)`, so any two
constructions produce identical values in all five parameter tensors, all
drawn from the stream seeded with 42. -/
theorem c9_init_deterministic (f : ℕ → ℕ → ℚ) (s1 s2 : ℕ) :
    NgramModuleVanilla.init f s1 = NgramModuleVanilla.init f s2
    ∧ (NgramModuleVanilla.init f s1).params.enc
        = fun i j => f 42 (i.val * 2 + j.val) := by
  refine ⟨rfl, ?_⟩
  funext i j
  show f 42 (0 + i.val * 2 + j.val) = f 42 (i.val * 2 + j.val)
  rw [Nat.zero_add]

/-- C10: for every batch, `validation_step` leaves all five parameter
tensors, every gradient slot, the `train_loss` metric and the `test_loss`
metric unchanged; it only records the batch loss in `val_loss`. -/
theorem c10_validation_step_frame (ops : Ops) (m : NgramModuleVanilla)
    (x : Batch) :
    (validation_step ops m x).params = m.params
    ∧ (validation_step ops m x).train_loss = m.train_loss
    ∧ (validation_step ops m x).encGrad = m.encGrad
    ∧ (validation_step ops m x).firstWGrad = m.firstWGrad
    ∧ (validation_step ops m x).firstBiasGrad = m.firstBiasGrad
    ∧ (validation_step ops m x).secondWGrad = m.secondWGrad
    ∧ (validation_step ops m x).secondBiasGrad = m.secondBiasGrad
    ∧ (validation_step ops m x).test_loss = m.test_loss
    ∧ (validation_step ops m x).val_loss
        = m.val_loss.update (model_step ops m.params x) :=
  ⟨rfl, rfl, rfl, rfl, rfl, rfl, rfl, rfl, rfl⟩
